import Mathlib

/-
Verification of the (M, N) periodic-review inventory policy simulator
(`simulation.py`).  The day-by-day simulation engine `simulate_policy` is
embedded shallowly: machine randomness (numpy generator) is modelled as an
abstract sequential stream of natural numbers consumed one draw at a time,
floats are modelled as rationals, and the only runtime failure (the numpy
`choice` validation of a discrete distribution) is modelled with `Except`.
-/

set_option maxHeartbeats 1000000

namespace InventorySim

/-- A pseudo-random stream: an infinite sequence of raw draws.  Models the
single sequential numpy generator stream; each sampling call consumes the
head and passes on the tail. -/
abbrev Rng : Type := Nat → Nat

/-- The only runtime error of the engine: `numpy.random.Generator.choice`
rejecting a malformed discrete distribution. -/
inductive SimError : Type where
  | invalidDistribution : SimError
deriving DecidableEq

/-- Cost structure for the inventory system (`CostParameters` in the source). -/
structure CostParameters where
  holding_cost : ℚ
  shortage_cost : ℚ
  unit_cost : ℚ
  ordering_cost : ℚ
deriving DecidableEq

/-- Initial inventory and outstanding order state (`InitialState` in the source). -/
structure InitialState where
  on_hand : Int
  outstanding_qty : Int
  lead_remaining : Int
deriving DecidableEq

/-- Discrete probability distributions for demand and lead time
(`DiscreteDistributions` in the source). -/
structure DiscreteDistributions where
  demand_values : List Int
  demand_probs : List ℚ
  lead_values : List Int
  lead_probs : List ℚ
deriving DecidableEq

/-- The mutable simulation state threaded through the day loop:
`on_hand`, `outstanding_qty`, `lead_remaining` in `simulate_policy`. -/
structure CoreState where
  on_hand : Int
  outstanding_qty : Int
  lead_remaining : Int
deriving DecidableEq, Inhabited

/-- One row of the per-day ledger appended by `simulate_policy`
(the dict with keys "Day", "Cycle", ..., "Total cost (day)"). -/
structure DayRecord where
  day : Int
  cycle : Int
  on_hand_start : Int
  incoming_today : Int
  demand : Int
  sales : Int
  ending_inventory : Int
  shortage_qty : Int
  holding_cost : ℚ
  shortage_cost : ℚ
  order_qty : Int
  lead_time_assigned : Option Int
  lead_remaining_end : Int
  purchasing_cost : ℚ
  ordering_cost : ℚ
  day_cost : ℚ
deriving DecidableEq, Inhabited

/-- The triple returned by `simulate_policy`: the record sequence (the
DataFrame rows, in order), the accumulated total cost, and the average
cost per cycle. -/
structure SimResult where
  records : List DayRecord
  total_cost : ℚ
  avg_cost_per_cycle : ℚ
deriving DecidableEq, Inhabited

/-- Validity check performed by `numpy.random.Generator.choice(values, p=probs)`
on every call: the probability vector must match the value vector in length,
be non-negative, sum to 1, and the value vector must be non-empty. -/
def distOk (values : List Int) (probs : List ℚ) : Bool :=
  decide (values.length = probs.length) &&
  probs.all (fun p => decide (0 ≤ p)) &&
  decide (probs.sum = 1) &&
  !values.isEmpty

/-- Model of `_sample_from_discrete`: validate the distribution (as
`rng.choice` does, erroring on a malformed one), then consume one raw draw
from the stream to select an element of `values`. -/
def sample_from_discrete (values : List Int) (probs : List ℚ) (g : Rng) :
    Except SimError (Int × Rng) :=
  if distOk values probs then
    Except.ok (values.getD (g 0 % values.length) 0, fun n => g (n + 1))
  else
    Except.error SimError.invalidDistribution

/-- Step 1 of the daily loop: receive the outstanding order at the start of
the day if its lead time has expired.  Returns the units received today and
the state after the arrival. -/
def arrivalStep (s : CoreState) : Int × CoreState :=
  if s.lead_remaining = 0 ∧ 0 < s.outstanding_qty then
    (s.outstanding_qty, ⟨s.on_hand + s.outstanding_qty, 0, s.lead_remaining⟩)
  else
    (0, s)

/-- Step 7 of the daily loop: decrease the lead time of the outstanding
order, if there is one and its lead time is still positive. -/
def leadDecrement (s : CoreState) : CoreState :=
  if 0 < s.outstanding_qty ∧ 0 < s.lead_remaining then
    { s with lead_remaining := s.lead_remaining - 1 }
  else
    s

/-- The ordering-decision guard of step 6: an order is placed iff today is a
review day (`day % N == 0`), ending inventory is below `M`, and no order is
outstanding at this point. -/
def placesOrder (M N day : Int) (s : CoreState) (demand : Int) : Bool :=
  let s1 := (arrivalStep s).2
  let sales := min s1.on_hand demand
  let ending_inventory := s1.on_hand - sales
  decide (day.fmod N = 0) && decide (ending_inventory < M) &&
    decide (s1.outstanding_qty = 0)

/-- The pure part of one day of `simulate_policy`, given the sampled demand
`d` and the sampled lead time `l` (the latter is only used when an order is
placed).  Produces the day's `DayRecord` and the state carried to the next
day. -/
def dayTransition (M N : Int) (costs : CostParameters) (day : Int)
    (s : CoreState) (d l : Int) : DayRecord × CoreState :=
  let cycle := (day - 1).fdiv N + 1
  let arr := arrivalStep s
  let incoming_today := arr.1
  let s1 := arr.2
  let on_hand_start := s1.on_hand
  let sales := min s1.on_hand d
  let shortage_qty := max (d - s1.on_hand) 0
  let ending_inventory := s1.on_hand - sales
  let holding_cost := (ending_inventory : ℚ) * costs.holding_cost
  let shortage_cost := (shortage_qty : ℚ) * costs.shortage_cost
  if placesOrder M N day s d then
    let order_qty := M - ending_inventory
    let s2 := leadDecrement ⟨ending_inventory, order_qty, l⟩
    let purchasing_cost := (order_qty : ℚ) * costs.unit_cost
    let ordering_cost := costs.ordering_cost
    let day_cost := holding_cost + shortage_cost + purchasing_cost + ordering_cost
    (⟨day, cycle, on_hand_start, incoming_today, d, sales, ending_inventory,
      shortage_qty, holding_cost, shortage_cost, order_qty, some l,
      s2.lead_remaining, purchasing_cost, ordering_cost, day_cost⟩, s2)
  else
    let s2 := leadDecrement ⟨ending_inventory, s1.outstanding_qty, s1.lead_remaining⟩
    let day_cost := holding_cost + shortage_cost + 0 + 0
    (⟨day, cycle, on_hand_start, incoming_today, d, sales, ending_inventory,
      shortage_qty, holding_cost, shortage_cost, 0, none,
      s2.lead_remaining, 0, 0, day_cost⟩, s2)

/-- One iteration of the day loop of `simulate_policy`: sample the demand
(one draw), and, only when the ordering guard fires, sample a lead time
(one further draw), mirroring the conditional consumption of the numpy
stream in the source. -/
def simulateDay (M N : Int) (costs : CostParameters) (dists : DiscreteDistributions)
    (day : Int) (s : CoreState) (g : Rng) :
    Except SimError (DayRecord × CoreState × Rng) :=
  match sample_from_discrete dists.demand_values dists.demand_probs g with
  | Except.error e => Except.error e
  | Except.ok (d, g1) =>
    if placesOrder M N day s d then
      match sample_from_discrete dists.lead_values dists.lead_probs g1 with
      | Except.error e => Except.error e
      | Except.ok (l, g2) =>
        Except.ok ((dayTransition M N costs day s d l).1,
                   (dayTransition M N costs day s d l).2, g2)
    else
      Except.ok ((dayTransition M N costs day s d 0).1,
                 (dayTransition M N costs day s d 0).2, g1)

/-- The day loop of `simulate_policy`: thread the state, the stream and the
running `total_cost` through the listed days, appending one record per day. -/
def runDays (M N : Int) (costs : CostParameters) (dists : DiscreteDistributions) :
    List Int → CoreState → Rng → ℚ →
    Except SimError (List DayRecord × CoreState × Rng × ℚ)
  | [], s, g, total => Except.ok ([], s, g, total)
  | day :: rest, s, g, total =>
    match simulateDay M N costs dists day s g with
    | Except.error e => Except.error e
    | Except.ok (rec, s', g') =>
      match runDays M N costs dists rest s' g' (total + rec.day_cost) with
      | Except.error e => Except.error e
      | Except.ok (recs, s'', g'', t'') => Except.ok (rec :: recs, s'', g'', t'')

/-- The 1-indexed day indices `range(1, num_days + 1)` of the source; empty
when `num_days ≤ 0`, exactly as Python's `range`. -/
def daysList (num_days : Int) : List Int :=
  (List.range num_days.toNat).map (fun k : Nat => (k : Int) + 1)

/-- Model of `simulate_policy`: initialise the state from the configuration,
run `N * num_cycles` days, and return the record sequence, the total cost and
the average cost per cycle (`total_cost / num_cycles`). -/
def simulate_policy (M N num_cycles : Int) (costs : CostParameters)
    (initial_state : InitialState) (dists : DiscreteDistributions) (g : Rng) :
    Except SimError SimResult :=
  let num_days := N * num_cycles
  match runDays M N costs dists (daysList num_days)
      ⟨initial_state.on_hand, initial_state.outstanding_qty,
       initial_state.lead_remaining⟩ g 0 with
  | Except.error e => Except.error e
  | Except.ok (recs, _, _, total) =>
    Except.ok ⟨recs, total, total / (num_cycles : ℚ)⟩

/-- Abstract model of `np.random.default_rng(seed)`: for any seed (or for
`none`, the system-entropy case) it yields one concrete deterministic
stream; the only property the development relies on is that the stream is a
function of the seed, which is what the numpy generator guarantees for a
concrete integer seed. -/
def default_rng (seed : Option Int) : Rng :=
  fun n => (seed.getD 0).natAbs + n

/-- `simulate_policy` invoked the way the pages invoke it: with a seed, from
which the generator is constructed. -/
def simulate_policy_seeded (M N num_cycles : Int) (costs : CostParameters)
    (initial_state : InitialState) (dists : DiscreteDistributions)
    (seed : Option Int) : Except SimError SimResult :=
  simulate_policy M N num_cycles costs initial_state dists (default_rng seed)

/-- A valid configuration in the sense of the specification's preconditions:
`N ≥ 1`, `M ≥ 0`, `num_cycles ≥ 1`, well-formed demand and lead-time
distributions over non-negative values, non-negative initial state and
non-negative cost parameters. -/
def validConfig (M N num_cycles : Int) (costs : CostParameters)
    (init : InitialState) (dists : DiscreteDistributions) : Bool :=
  decide (1 ≤ N) && decide (0 ≤ M) && decide (1 ≤ num_cycles) &&
  distOk dists.demand_values dists.demand_probs &&
  distOk dists.lead_values dists.lead_probs &&
  dists.demand_values.all (fun v => decide (0 ≤ v)) &&
  dists.lead_values.all (fun v => decide (0 ≤ v)) &&
  decide (0 ≤ init.on_hand) && decide (0 ≤ init.outstanding_qty) &&
  decide (0 ≤ init.lead_remaining) &&
  decide (0 ≤ costs.holding_cost) && decide (0 ≤ costs.shortage_cost) &&
  decide (0 ≤ costs.unit_cost) && decide (0 ≤ costs.ordering_cost)

/-- Concrete cost parameters used in the concrete instantiations below. -/
def wCosts : CostParameters := ⟨1, 1, 1, 1⟩

/-- Concrete initial state of the specification's scenarios A and B. -/
def wInit : InitialState := ⟨5, 0, 0⟩

/-- Demand fixed at 0 and lead time fixed at 1: the distributions of the
specification's scenarios A and B. -/
def wDistsB : DiscreteDistributions := ⟨[0], [1], [1], [1]⟩

/-- A concrete stream for concrete runs. -/
def wRng : Rng := fun _ => 0

/-- The day-1 record of the scenario-B run (M=7, N=1, one cycle) at `wCosts`. -/
def wRecB : DayRecord := ⟨1, 1, 5, 0, 0, 0, 5, 0, 5, 0, 2, some 1, 0, 2, 1, 8⟩

/-- The result of the scenario-B run (M=7, N=1, one cycle) at `wCosts`. -/
def wResB : SimResult := ⟨[wRecB], 8, 8⟩

/-- Initial state with an outstanding order of 2 units due immediately. -/
def cexInit : InitialState := ⟨0, 2, 0⟩

/-- Demand fixed at 5 and lead time fixed at 1. -/
def cexDists : DiscreteDistributions := ⟨[5], [1], [1], [1]⟩

/-- The day-1 record of the run used to refute the
`OnHandStart + IncomingToday` shortage formula: M=0, N=1, one cycle,
demand 5, two units arriving on day 1. -/
def cexRec : DayRecord := ⟨1, 1, 2, 2, 5, 2, 0, 3, 0, 3, 0, none, 0, 0, 0, 3⟩

/-- The result of that run. -/
def cexRes : SimResult := ⟨[cexRec], 3, 3⟩

/-- A malformed distribution: probabilities sum to 1/2, not 1. -/
def badDists : DiscreteDistributions := ⟨[0], [1/2], [1], [1]⟩

/-- Demand fixed at 0 and lead time fixed at 0. -/
def wDists0 : DiscreteDistributions := ⟨[0], [1], [0], [1]⟩

/-- Day-1 record of a run that places an order with sampled lead time 0. -/
def w10Rec1 : DayRecord := ⟨1, 1, 5, 0, 0, 0, 5, 0, 5, 0, 2, some 0, 0, 2, 1, 8⟩

/-- Day-2 record of the same run: the lead-time-0 order arrives at the start
of day 2. -/
def w10Rec2 : DayRecord := ⟨2, 2, 7, 2, 0, 0, 7, 0, 7, 0, 0, none, 0, 0, 0, 7⟩

/-! ## Basic lemmas about the sampler and the day step -/

theorem sample_ok_iff {values : List Int} {probs : List ℚ} {g : Rng}
    {out : Int × Rng} :
    sample_from_discrete values probs g = Except.ok out ↔
      distOk values probs = true ∧
        out = (values.getD (g 0 % values.length) 0, fun n => g (n + 1)) := by
  unfold sample_from_discrete
  by_cases h : distOk values probs = true
  · simp [h, eq_comm]
  · simp [h]

theorem sample_error_of_not_distOk {values : List Int} {probs : List ℚ}
    (g : Rng) (h : distOk values probs = false) :
    sample_from_discrete values probs g =
      Except.error SimError.invalidDistribution := by
  unfold sample_from_discrete
  simp [h]

theorem distOk_nonempty {values : List Int} {probs : List ℚ}
    (h : distOk values probs = true) : values ≠ [] := by
  unfold distOk at h
  simp only [Bool.and_eq_true, Bool.not_eq_true', List.isEmpty_eq_false] at h
  exact h.2

theorem sample_mem {values : List Int} {probs : List ℚ} {g : Rng}
    {x : Int} {g' : Rng}
    (h : sample_from_discrete values probs g = Except.ok (x, g')) :
    x ∈ values := by
  rw [sample_ok_iff] at h
  obtain ⟨hok, hout⟩ := h
  have hne : values ≠ [] := distOk_nonempty hok
  have hlen : 0 < values.length := List.length_pos.mpr hne
  have hlt : g 0 % values.length < values.length := Nat.mod_lt _ hlen
  have hx : x = values.getD (g 0 % values.length) 0 := congrArg Prod.fst hout
  rw [hx, List.getD_eq_getElem _ _ hlt]
  exact List.getElem_mem _

/-- Eliminate a successful `simulateDay`: the record and new state come from
`dayTransition` at a sampled demand belonging to the demand values. -/
theorem simulateDay_ok_elim {M N : Int} {costs : CostParameters}
    {dists : DiscreteDistributions} {day : Int} {s : CoreState} {g : Rng}
    {rec : DayRecord} {s' : CoreState} {g' : Rng}
    (h : simulateDay M N costs dists day s g = Except.ok (rec, s', g')) :
    ∃ d l, d ∈ dists.demand_values ∧
      rec = (dayTransition M N costs day s d l).1 ∧
      s' = (dayTransition M N costs day s d l).2 := by
  unfold simulateDay at h
  cases hd : sample_from_discrete dists.demand_values dists.demand_probs g with
  | error e => rw [hd] at h; exact absurd h (by simp)
  | ok val =>
    obtain ⟨d, g1⟩ := val
    simp only [hd] at h
    by_cases hp : placesOrder M N day s d = true
    · rw [if_pos hp] at h
      cases hl : sample_from_discrete dists.lead_values dists.lead_probs g1 with
      | error e => rw [hl] at h; exact absurd h (by simp)
      | ok lval =>
        obtain ⟨l, g2⟩ := lval
        simp only [hl, Except.ok.injEq, Prod.mk.injEq] at h
        exact ⟨d, l, sample_mem hd, h.1.symm, h.2.1.symm⟩
    · rw [if_neg hp] at h
      simp only [Except.ok.injEq, Prod.mk.injEq] at h
      exact ⟨d, 0, sample_mem hd, h.1.symm, h.2.1.symm⟩

/-- A malformed demand distribution makes every day step fail. -/
theorem simulateDay_error_of_bad_demand {M N : Int} {costs : CostParameters}
    {dists : DiscreteDistributions} (day : Int) (s : CoreState) (g : Rng)
    (h : distOk dists.demand_values dists.demand_probs = false) :
    simulateDay M N costs dists day s g =
      Except.error SimError.invalidDistribution := by
  unfold simulateDay
  rw [sample_error_of_not_distOk g h]

/-! ## Lemmas about the day loop -/

theorem runDays_forall {M N : Int} {costs : CostParameters}
    {dists : DiscreteDistributions}
    (P : Int → DayRecord → Prop) (Inv : CoreState → Prop)
    (hstep : ∀ day s g rec s' g', Inv s →
      simulateDay M N costs dists day s g = Except.ok (rec, s', g') →
      P day rec ∧ Inv s') :
    ∀ (days : List Int) (s : CoreState) (g : Rng) (t : ℚ)
      {recs : List DayRecord} {s' : CoreState} {g' : Rng} {t' : ℚ},
      Inv s →
      runDays M N costs dists days s g t = Except.ok (recs, s', g', t') →
      List.Forall₂ P days recs ∧ Inv s' := by
  intro days
  induction days with
  | nil =>
    intro s g t recs s' g' t' hInv h
    unfold runDays at h
    simp only [Except.ok.injEq, Prod.mk.injEq] at h
    obtain ⟨h1, h2, -⟩ := h
    subst h1; subst h2
    exact ⟨List.Forall₂.nil, hInv⟩
  | cons day rest ih =>
    intro s g t recs s' g' t' hInv h
    unfold runDays at h
    cases hd : simulateDay M N costs dists day s g with
    | error e => rw [hd] at h; exact absurd h (by simp)
    | ok out =>
      obtain ⟨rec, s1, g1⟩ := out
      simp only [hd] at h
      cases hr : runDays M N costs dists rest s1 g1 (t + rec.day_cost) with
      | error e => rw [hr] at h; exact absurd h (by simp)
      | ok out2 =>
        obtain ⟨recs1, s2, g2, t2⟩ := out2
        simp only [hr, Except.ok.injEq, Prod.mk.injEq] at h
        obtain ⟨h1, h2, -⟩ := h
        subst h1; subst h2
        obtain ⟨hP, hInv1⟩ := hstep day s g rec s1 g1 hInv hd
        obtain ⟨hFor, hInv2⟩ := ih s1 g1 (t + rec.day_cost) hInv1 hr
        exact ⟨List.Forall₂.cons hP hFor, hInv2⟩

theorem runDays_total {M N : Int} {costs : CostParameters}
    {dists : DiscreteDistributions} :
    ∀ (days : List Int) (s : CoreState) (g : Rng) (t : ℚ)
      {recs : List DayRecord} {s' : CoreState} {g' : Rng} {t' : ℚ},
      runDays M N costs dists days s g t = Except.ok (recs, s', g', t') →
      t' = t + (recs.map (fun r => r.day_cost)).sum := by
  intro days
  induction days with
  | nil =>
    intro s g t recs s' g' t' h
    unfold runDays at h
    simp only [Except.ok.injEq, Prod.mk.injEq] at h
    obtain ⟨h1, -, -, h4⟩ := h
    subst h1; subst h4
    simp
  | cons day rest ih =>
    intro s g t recs s' g' t' h
    unfold runDays at h
    cases hd : simulateDay M N costs dists day s g with
    | error e => rw [hd] at h; exact absurd h (by simp)
    | ok out =>
      obtain ⟨rec, s1, g1⟩ := out
      simp only [hd] at h
      cases hr : runDays M N costs dists rest s1 g1 (t + rec.day_cost) with
      | error e => rw [hr] at h; exact absurd h (by simp)
      | ok out2 =>
        obtain ⟨recs1, s2, g2, t2⟩ := out2
        simp only [hr, Except.ok.injEq, Prod.mk.injEq] at h
        obtain ⟨h1, -, -, h4⟩ := h
        subst h1; subst h4
        have := ih s1 g1 (t + rec.day_cost) hr
        rw [this]
        simp [add_assoc]

theorem runDays_error_of_bad_demand {M N : Int} {costs : CostParameters}
    {dists : DiscreteDistributions} (day : Int) (rest : List Int)
    (s : CoreState) (g : Rng) (t : ℚ)
    (h : distOk dists.demand_values dists.demand_probs = false) :
    runDays M N costs dists (day :: rest) s g t =
      Except.error SimError.invalidDistribution := by
  unfold runDays
  rw [simulateDay_error_of_bad_demand day s g h]

/-! ## Lemmas about the driver -/

theorem simulate_policy_ok_elim {M N num_cycles : Int} {costs : CostParameters}
    {init : InitialState} {dists : DiscreteDistributions} {g : Rng}
    {res : SimResult}
    (h : simulate_policy M N num_cycles costs init dists g = Except.ok res) :
    ∃ s' g', runDays M N costs dists (daysList (N * num_cycles))
        ⟨init.on_hand, init.outstanding_qty, init.lead_remaining⟩ g 0 =
        Except.ok (res.records, s', g', res.total_cost) ∧
      res.avg_cost_per_cycle = res.total_cost / (num_cycles : ℚ) := by
  unfold simulate_policy at h
  cases hr : runDays M N costs dists (daysList (N * num_cycles))
      ⟨init.on_hand, init.outstanding_qty, init.lead_remaining⟩ g 0 with
  | error e => simp only [hr] at h; exact absurd h (by simp)
  | ok out =>
    obtain ⟨recs, s', g', total⟩ := out
    simp only [hr, Except.ok.injEq] at h
    subst h
    exact ⟨s', g', rfl, rfl⟩

/-! ## Lemmas about the day-index list -/

theorem daysList_length (n : Int) : (daysList n).length = n.toNat := by
  unfold daysList
  rw [List.length_map, List.length_range]

theorem daysList_getD {n : Int} {k : Nat} (hk : k < n.toNat) :
    (daysList n).getD k 0 = (k : Int) + 1 := by
  have hlen : k < (daysList n).length := by rw [daysList_length]; exact hk
  rw [List.getD_eq_getElem _ _ hlen]
  unfold daysList
  rw [List.getElem_map, List.getElem_range]

theorem daysList_ne_nil {n : Int} (hn : 1 ≤ n) : daysList n ≠ [] := by
  have : 0 < n.toNat := by omega
  have hlen : 0 < (daysList n).length := by rw [daysList_length]; exact this
  exact List.ne_nil_of_length_pos hlen

/-! ## Forall₂ helpers -/

theorem forall₂_mem_right {P : Int → DayRecord → Prop} :
    ∀ {ds : List Int} {rs : List DayRecord}, List.Forall₂ P ds rs →
      ∀ r ∈ rs, ∃ d, P d r := by
  intro ds rs h
  induction h with
  | nil => intro r hr; exact absurd hr (List.not_mem_nil r)
  | cons hP hFor ih =>
    intro r hr
    rcases List.mem_cons.mp hr with h1 | h2
    · exact ⟨_, h1 ▸ hP⟩
    · exact ih r h2

theorem forall₂_getD {P : Int → DayRecord → Prop} :
    ∀ {ds : List Int} {rs : List DayRecord}, List.Forall₂ P ds rs →
      ∀ k, k < rs.length → P (ds.getD k 0) (rs.getD k default) := by
  intro ds rs h
  induction h with
  | nil => intro k hk; exact absurd hk (by simp)
  | cons hP hFor ih =>
    intro k hk
    cases k with
    | zero => simpa using hP
    | succ k =>
      simp only [List.getD_cons_succ]
      exact ih k (by simpa using hk)

/-! ## Field lemmas about the pure day transition -/

theorem leadDecrement_on_hand (s : CoreState) :
    (leadDecrement s).on_hand = s.on_hand := by
  unfold leadDecrement; split <;> rfl

theorem leadDecrement_outstanding (s : CoreState) :
    (leadDecrement s).outstanding_qty = s.outstanding_qty := by
  unfold leadDecrement; split <;> rfl

theorem arrivalStep_incoming_nonneg (s : CoreState) (h : 0 ≤ s.outstanding_qty) :
    0 ≤ (arrivalStep s).1 := by
  unfold arrivalStep; split <;> simp [h]

theorem arrivalStep_on_hand (s : CoreState) :
    (arrivalStep s).2.on_hand = s.on_hand + (arrivalStep s).1 := by
  unfold arrivalStep; split <;> simp

theorem arrivalStep_outstanding (s : CoreState) :
    (arrivalStep s).2.outstanding_qty = 0 ∨
      (arrivalStep s).2.outstanding_qty = s.outstanding_qty := by
  unfold arrivalStep; split <;> simp

theorem arrivalStep_arrives (s : CoreState) (h0 : s.lead_remaining = 0)
    (h1 : 0 < s.outstanding_qty) : (arrivalStep s).1 = s.outstanding_qty := by
  unfold arrivalStep
  rw [if_pos ⟨h0, h1⟩]

theorem placesOrder_elim {M N day : Int} {s : CoreState} {d : Int}
    (h : placesOrder M N day s d = true) :
    day.fmod N = 0 ∧
      (arrivalStep s).2.on_hand - min (arrivalStep s).2.on_hand d < M ∧
      (arrivalStep s).2.outstanding_qty = 0 := by
  unfold placesOrder at h
  simp only [Bool.and_eq_true, decide_eq_true_eq] at h
  exact ⟨h.1.1, h.1.2, h.2⟩

theorem dayTransition_common (M N : Int) (costs : CostParameters) (day : Int)
    (s : CoreState) (d l : Int) :
    (dayTransition M N costs day s d l).1.day = day ∧
    (dayTransition M N costs day s d l).1.cycle = (day - 1).fdiv N + 1 ∧
    (dayTransition M N costs day s d l).1.on_hand_start = (arrivalStep s).2.on_hand ∧
    (dayTransition M N costs day s d l).1.incoming_today = (arrivalStep s).1 ∧
    (dayTransition M N costs day s d l).1.demand = d ∧
    (dayTransition M N costs day s d l).1.sales = min (arrivalStep s).2.on_hand d ∧
    (dayTransition M N costs day s d l).1.shortage_qty =
      max (d - (arrivalStep s).2.on_hand) 0 ∧
    (dayTransition M N costs day s d l).1.ending_inventory =
      (arrivalStep s).2.on_hand - min (arrivalStep s).2.on_hand d ∧
    (dayTransition M N costs day s d l).1.day_cost =
      (dayTransition M N costs day s d l).1.holding_cost +
      (dayTransition M N costs day s d l).1.shortage_cost +
      (dayTransition M N costs day s d l).1.purchasing_cost +
      (dayTransition M N costs day s d l).1.ordering_cost ∧
    (dayTransition M N costs day s d l).1.lead_remaining_end =
      (dayTransition M N costs day s d l).2.lead_remaining ∧
    (dayTransition M N costs day s d l).2.on_hand =
      (dayTransition M N costs day s d l).1.ending_inventory := by
  unfold dayTransition
  by_cases hp : placesOrder M N day s d = true
  · simp [hp, leadDecrement_on_hand]
  · simp [hp, leadDecrement_on_hand]

theorem dayTransition_no_order (M N : Int) (costs : CostParameters) (day : Int)
    (s : CoreState) (d l : Int) (hp : placesOrder M N day s d = false) :
    (dayTransition M N costs day s d l).1.order_qty = 0 ∧
    (dayTransition M N costs day s d l).1.lead_time_assigned = none ∧
    (dayTransition M N costs day s d l).1.purchasing_cost = 0 ∧
    (dayTransition M N costs day s d l).1.ordering_cost = 0 ∧
    (dayTransition M N costs day s d l).2.outstanding_qty =
      (arrivalStep s).2.outstanding_qty ∧
    (dayTransition M N costs day s d l).2.lead_remaining =
      (leadDecrement ⟨(dayTransition M N costs day s d l).1.ending_inventory,
        (arrivalStep s).2.outstanding_qty,
        (arrivalStep s).2.lead_remaining⟩).lead_remaining := by
  unfold dayTransition
  simp [hp, leadDecrement_outstanding]

theorem dayTransition_order (M N : Int) (costs : CostParameters) (day : Int)
    (s : CoreState) (d l : Int) (hp : placesOrder M N day s d = true) :
    (dayTransition M N costs day s d l).1.order_qty =
      M - (dayTransition M N costs day s d l).1.ending_inventory ∧
    (dayTransition M N costs day s d l).1.lead_time_assigned = some l ∧
    (dayTransition M N costs day s d l).1.purchasing_cost =
      ((dayTransition M N costs day s d l).1.order_qty : ℚ) * costs.unit_cost ∧
    (dayTransition M N costs day s d l).1.ordering_cost = costs.ordering_cost ∧
    (dayTransition M N costs day s d l).2.outstanding_qty =
      (dayTransition M N costs day s d l).1.order_qty ∧
    (dayTransition M N costs day s d l).2 =
      leadDecrement ⟨(dayTransition M N costs day s d l).1.ending_inventory,
        (dayTransition M N costs day s d l).1.order_qty, l⟩ := by
  unfold dayTransition
  simp [hp, leadDecrement_outstanding]

theorem dayTransition_order_qty_pos (M N : Int) (costs : CostParameters)
    (day : Int) (s : CoreState) (d l : Int)
    (hp : placesOrder M N day s d = true) :
    0 < (dayTransition M N costs day s d l).1.order_qty := by
  have hM := (placesOrder_elim hp).2.1
  have hq := (dayTransition_order M N costs day s d l hp).1
  have hend := (dayTransition_common M N costs day s d l).2.2.2.2.2.2.2.1
  omega

/-! ## Run-level record lemma and configuration eliminator -/

theorem simulate_policy_records {M N num_cycles : Int} {costs : CostParameters}
    {init : InitialState} {dists : DiscreteDistributions} {g : Rng}
    {res : SimResult}
    (P : Int → DayRecord → Prop) (Inv : CoreState → Prop)
    (hInv0 : Inv ⟨init.on_hand, init.outstanding_qty, init.lead_remaining⟩)
    (hstep : ∀ day s g rec s' g', Inv s →
      simulateDay M N costs dists day s g = Except.ok (rec, s', g') →
      P day rec ∧ Inv s')
    (hok : simulate_policy M N num_cycles costs init dists g = Except.ok res) :
    List.Forall₂ P (daysList (N * num_cycles)) res.records := by
  obtain ⟨s', g', hrun, -⟩ := simulate_policy_ok_elim hok
  exact (runDays_forall P Inv hstep _ _ _ _ hInv0 hrun).1

theorem validConfig_elim {M N num_cycles : Int} {costs : CostParameters}
    {init : InitialState} {dists : DiscreteDistributions}
    (hv : validConfig M N num_cycles costs init dists = true) :
    1 ≤ N ∧ 0 ≤ M ∧ 1 ≤ num_cycles ∧
    distOk dists.demand_values dists.demand_probs = true ∧
    distOk dists.lead_values dists.lead_probs = true ∧
    (∀ v ∈ dists.demand_values, 0 ≤ v) ∧
    (∀ v ∈ dists.lead_values, 0 ≤ v) ∧
    0 ≤ init.on_hand ∧ 0 ≤ init.outstanding_qty ∧ 0 ≤ init.lead_remaining := by
  unfold validConfig at hv
  simp only [Bool.and_eq_true, decide_eq_true_eq, List.all_eq_true] at hv
  obtain ⟨⟨⟨⟨⟨⟨⟨⟨⟨⟨⟨⟨⟨hN, hM⟩, hc⟩, hd⟩, hl⟩, hdv⟩, hlv⟩, hoh⟩, hoq⟩, hlr⟩,
    -⟩, -⟩, -⟩, -⟩ := hv
  exact ⟨hN, hM, hc, hd, hl, fun v hv => hdv v hv, fun v hv => hlv v hv,
    hoh, hoq, hlr⟩

/-! ## Concrete evaluation lemmas -/

theorem distOk_singleton (v : Int) : distOk [v] [1] = true := by
  norm_num [distOk]

theorem sample_singleton (v : Int) (g : Rng) :
    sample_from_discrete [v] [1] g = Except.ok (v, fun n => g (n + 1)) := by
  unfold sample_from_discrete
  rw [if_pos (distOk_singleton v)]
  simp [Nat.mod_one]

theorem simulateDay_singleton (M N : Int) (costs : CostParameters) (dv lv : Int)
    (day : Int) (s : CoreState) (g : Rng) :
    simulateDay M N costs ⟨[dv], [1], [lv], [1]⟩ day s g =
      if placesOrder M N day s dv then
        Except.ok ((dayTransition M N costs day s dv lv).1,
          (dayTransition M N costs day s dv lv).2, fun n => g (n + 1 + 1))
      else
        Except.ok ((dayTransition M N costs day s dv 0).1,
          (dayTransition M N costs day s dv 0).2, fun n => g (n + 1)) := by
  unfold simulateDay
  simp only [sample_singleton]

theorem scenB_day1 (costs : CostParameters) (g : Rng) :
    simulateDay 7 1 costs wDistsB 1 ⟨5, 0, 0⟩ g =
      Except.ok (⟨1, 1, 5, 0, 0, 0, 5, 0, 5 * costs.holding_cost, 0,
        2, some 1, 0, 2 * costs.unit_cost, costs.ordering_cost,
        5 * costs.holding_cost + 2 * costs.unit_cost + costs.ordering_cost⟩,
        ⟨5, 2, 0⟩, fun n => g (n + 1 + 1)) := by
  have h := simulateDay_singleton 7 1 costs 0 1 1 ⟨5, 0, 0⟩ g
  rw [show (placesOrder 7 1 1 ⟨5, 0, 0⟩ 0) = true from by decide] at h
  rw [if_pos rfl] at h
  rw [show wDistsB = (⟨[0], [1], [1], [1]⟩ : DiscreteDistributions) from rfl]
  rw [h]
  norm_num [dayTransition, placesOrder, arrivalStep, leadDecrement, Int.fdiv]

theorem scenarioB_run (costs : CostParameters) (g : Rng) :
    simulate_policy 7 1 1 costs wInit wDistsB g =
      Except.ok ⟨[⟨1, 1, 5, 0, 0, 0, 5, 0, 5 * costs.holding_cost, 0,
        2, some 1, 0, 2 * costs.unit_cost, costs.ordering_cost,
        5 * costs.holding_cost + 2 * costs.unit_cost + costs.ordering_cost⟩],
        5 * costs.holding_cost + 2 * costs.unit_cost + costs.ordering_cost,
        5 * costs.holding_cost + 2 * costs.unit_cost + costs.ordering_cost⟩ := by
  unfold simulate_policy
  simp only [wInit]
  rw [show daysList (1 * 1) = [1] from rfl]
  simp only [runDays, scenB_day1]
  norm_num

theorem scenB_run_w :
    simulate_policy 7 1 1 wCosts wInit wDistsB wRng = Except.ok wResB := by
  rw [scenarioB_run wCosts wRng]
  norm_num [wCosts, wResB, wRecB]

theorem scenB_day1_w :
    simulateDay 7 1 wCosts wDistsB 1 ⟨5, 0, 0⟩ wRng =
      Except.ok (wRecB, ⟨5, 2, 0⟩, fun n => wRng (n + 1 + 1)) := by
  rw [scenB_day1 wCosts wRng]
  norm_num [wCosts, wRecB]

theorem cex_day1 :
    simulateDay 0 1 wCosts cexDists 1 ⟨0, 2, 0⟩ wRng =
      Except.ok (cexRec, ⟨0, 0, 0⟩, fun n => wRng (n + 1)) := by
  have h := simulateDay_singleton 0 1 wCosts 5 1 1 ⟨0, 2, 0⟩ wRng
  rw [show (placesOrder 0 1 1 ⟨0, 2, 0⟩ 5) = false from by decide,
    if_neg (by decide)] at h
  rw [show cexDists = (⟨[5], [1], [1], [1]⟩ : DiscreteDistributions) from rfl]
  rw [h]
  norm_num [dayTransition, placesOrder, arrivalStep, leadDecrement, Int.fdiv,
    wCosts, cexRec]

theorem cex_run :
    simulate_policy 0 1 1 wCosts cexInit cexDists wRng = Except.ok cexRes := by
  unfold simulate_policy
  simp only [cexInit]
  rw [show daysList (1 * 1) = [1] from rfl]
  simp only [runDays, cex_day1]
  norm_num [cexRes, cexRec]

theorem emptyN0_run :
    simulate_policy 5 0 1 wCosts wInit wDistsB wRng =
      Except.ok ⟨[], 0, 0⟩ := by
  unfold simulate_policy
  simp only [wInit]
  rw [show daysList (0 * 1) = ([] : List Int) from rfl]
  simp only [runDays]
  norm_num

theorem w10_day1 :
    simulateDay 7 1 wCosts wDists0 1 ⟨5, 0, 0⟩ wRng =
      Except.ok (w10Rec1, ⟨5, 2, 0⟩, fun n => wRng (n + 1 + 1)) := by
  have h := simulateDay_singleton 7 1 wCosts 0 0 1 ⟨5, 0, 0⟩ wRng
  rw [show (placesOrder 7 1 1 ⟨5, 0, 0⟩ 0) = true from by decide] at h
  rw [if_pos rfl] at h
  rw [show wDists0 = (⟨[0], [1], [0], [1]⟩ : DiscreteDistributions) from rfl]
  rw [h]
  norm_num [dayTransition, placesOrder, arrivalStep, leadDecrement, Int.fdiv,
    wCosts, w10Rec1]

theorem w10_day2 :
    simulateDay 7 1 wCosts wDists0 2 ⟨5, 2, 0⟩ wRng =
      Except.ok (w10Rec2, ⟨7, 0, 0⟩, fun n => wRng (n + 1)) := by
  have h := simulateDay_singleton 7 1 wCosts 0 0 2 ⟨5, 2, 0⟩ wRng
  rw [show (placesOrder 7 1 2 ⟨5, 2, 0⟩ 0) = false from by decide,
    if_neg (by decide)] at h
  rw [show wDists0 = (⟨[0], [1], [0], [1]⟩ : DiscreteDistributions) from rfl]
  rw [h]
  norm_num [dayTransition, placesOrder, arrivalStep, leadDecrement, Int.fdiv,
    wCosts, w10Rec2]

theorem validConfig_w : validConfig 7 1 1 wCosts wInit wDistsB = true := by
  norm_num [validConfig, distOk, wCosts, wInit, wDistsB]

theorem validConfig_cex : validConfig 0 1 1 wCosts cexInit cexDists = true := by
  norm_num [validConfig, distOk, wCosts, cexInit, cexDists]

theorem badDists_bad :
    distOk badDists.demand_values badDists.demand_probs = false := by
  norm_num [badDists, distOk]

/-! ## Claim C1 -/

/-- C1 counterexample: on a valid configuration where two units arrive on a
day of demand 5 with no prior stock, the recorded shortage is 3, but the
claimed formula `max(Demand - (OnHandStart + IncomingToday), 0)` gives 1,
because `OnHandStart` is recorded after the arrival step and therefore
already includes `IncomingToday`. -/
theorem C1_counterexample :
    validConfig 0 1 1 wCosts cexInit cexDists = true ∧
    simulate_policy 0 1 1 wCosts cexInit cexDists wRng = Except.ok cexRes ∧
    cexRes.records.headI.incoming_today = 2 ∧
    cexRes.records.headI.shortage_qty ≠
      max (cexRes.records.headI.demand -
        (cexRes.records.headI.on_hand_start +
          cexRes.records.headI.incoming_today)) 0 := by
  refine ⟨validConfig_cex, cex_run, ?_, ?_⟩ <;> norm_num [cexRes, cexRec]

/-- C1 (amended): for every day of every run of `simulate_policy` with a
valid configuration, `ShortageQty == max(Demand - OnHandStart, 0)`, where
`OnHandStart` is the recorded on-hand at start of day, which already
includes `IncomingToday` (the arrival step precedes the recording of
`OnHandStart`). -/
theorem C1_shortage_amended (M N num_cycles : Int) (costs : CostParameters)
    (init : InitialState) (dists : DiscreteDistributions) (g : Rng)
    (res : SimResult)
    (hv : validConfig M N num_cycles costs init dists = true)
    (hok : simulate_policy M N num_cycles costs init dists g = Except.ok res)
    (r : DayRecord) (hr : r ∈ res.records) :
    r.shortage_qty = max (r.demand - r.on_hand_start) 0 := by
  have hstep : ∀ day s g1 rec s1 g2, True →
      simulateDay M N costs dists day s g1 = Except.ok (rec, s1, g2) →
      rec.shortage_qty = max (rec.demand - rec.on_hand_start) 0 ∧ True := by
    intro day s g1 rec s1 g2 htriv h
    obtain ⟨d, l, -, hrec, -⟩ := simulateDay_ok_elim h
    subst hrec
    have hc := dayTransition_common M N costs day s d l
    refine ⟨?_, trivial⟩
    rw [hc.2.2.2.2.2.2.1, hc.2.2.2.2.1, hc.2.2.1]
  have hfor := simulate_policy_records
    (fun _ rec => rec.shortage_qty = max (rec.demand - rec.on_hand_start) 0)
    (fun _ => True) trivial hstep hok
  obtain ⟨d, hP⟩ := forall₂_mem_right hfor r hr
  exact hP

/-- C1 witness: the amended shortage identity evaluated on the concrete
counterexample run, on which the original formula fails. -/
theorem C1_shortage_amended_witness :
    cexRes.records.headI.shortage_qty =
      max (cexRes.records.headI.demand - cexRes.records.headI.on_hand_start) 0 :=
  C1_shortage_amended 0 1 1 wCosts cexInit cexDists wRng cexRes validConfig_cex
    cex_run cexRes.records.headI (by norm_num [cexRes])

/-! ## Claim C2 -/

/-- C2 counterexample: a configuration with non-positive `N` (here N = 0) is
invalid per the claim, yet `simulate_policy` does not fail: it returns a
normal (empty) record sequence with zero totals. -/
theorem C2_counterexample :
    ¬ (1 ≤ (0 : Int)) ∧
    simulate_policy 5 0 1 wCosts wInit wDistsB wRng =
      Except.ok ⟨[], 0, 0⟩ :=
  ⟨by decide, emptyN0_run⟩

/-- C2 (amended): only a malformed distribution is rejected, and only when a
sampling call reaches it: with a malformed demand distribution and at least
one simulated day, `simulate_policy` fails before producing any output.
Non-positive `N`, negative costs and negative initial-state quantities are
not rejected: the engine runs to completion (with an empty record sequence
when `N * num_cycles ≤ 0`).  No partial record sequence is ever returned:
the result is either a complete success or an error carrying no records. -/
theorem C2_error_amended (M N num_cycles : Int) (costs : CostParameters)
    (init : InitialState) (dists : DiscreteDistributions) (g : Rng)
    (hbad : distOk dists.demand_values dists.demand_probs = false)
    (hdays : 1 ≤ N * num_cycles) :
    simulate_policy M N num_cycles costs init dists g =
      Except.error SimError.invalidDistribution := by
  have hne := daysList_ne_nil hdays
  have hrun : runDays M N costs dists (daysList (N * num_cycles))
      ⟨init.on_hand, init.outstanding_qty, init.lead_remaining⟩ g 0 =
      Except.error SimError.invalidDistribution := by
    cases hdl : daysList (N * num_cycles) with
    | nil => exact absurd hdl hne
    | cons day rest => exact runDays_error_of_bad_demand day rest _ g 0 hbad
  unfold simulate_policy
  simp only [hrun]

/-- C2 witness: with probabilities summing to 1/2 the run fails with a
distribution error before producing any output. -/
theorem C2_error_amended_witness :
    simulate_policy 5 1 1 wCosts wInit badDists wRng =
      Except.error SimError.invalidDistribution :=
  C2_error_amended 5 1 1 wCosts wInit badDists wRng badDists_bad (by decide)

/-! ## Claim C3 -/

/-- C3: for every valid configuration and every concrete integer seed, two
invocations of `simulate_policy` with that identical seed and identical
arguments return identical record sequences and identical totals.  In the
embedding the seeded generator is a function of the seed (as numpy's
`default_rng` is for a concrete integer seed), so equal seeds give equal
results. -/
theorem C3_reproducibility (M N num_cycles : Int) (costs : CostParameters)
    (init : InitialState) (dists : DiscreteDistributions) (seed1 seed2 : Int)
    (hv : validConfig M N num_cycles costs init dists = true)
    (hs : seed1 = seed2) :
    simulate_policy_seeded M N num_cycles costs init dists (some seed1) =
      simulate_policy_seeded M N num_cycles costs init dists (some seed2) := by
  rw [hs]

/-- C3 witness: reproducibility evaluated on the concrete scenario-B
configuration with seed 0. -/
theorem C3_reproducibility_witness :
    simulate_policy_seeded 7 1 1 wCosts wInit wDistsB (some 0) =
      simulate_policy_seeded 7 1 1 wCosts wInit wDistsB (some 0) :=
  C3_reproducibility 7 1 1 wCosts wInit wDistsB 0 0 validConfig_w rfl

/-! ## Claim C4 -/

/-- C4: for every run of `simulate_policy` with a valid configuration, every
day record satisfies `TotalCostDay == HoldingCost + ShortageCost +
PurchasingCost + OrderingCost`, the returned total cost is the sum of the
daily totals, and the returned average cost per cycle is
`total_cost / num_cycles`. -/
theorem C4_cost_additivity (M N num_cycles : Int) (costs : CostParameters)
    (init : InitialState) (dists : DiscreteDistributions) (g : Rng)
    (res : SimResult)
    (hv : validConfig M N num_cycles costs init dists = true)
    (hok : simulate_policy M N num_cycles costs init dists g = Except.ok res) :
    res.total_cost = (res.records.map (fun r => r.day_cost)).sum ∧
    res.avg_cost_per_cycle = res.total_cost / (num_cycles : ℚ) ∧
    ∀ r ∈ res.records, r.day_cost =
      r.holding_cost + r.shortage_cost + r.purchasing_cost + r.ordering_cost := by
  obtain ⟨s', g', hrun, havg⟩ := simulate_policy_ok_elim hok
  refine ⟨?_, havg, ?_⟩
  · have ht := runDays_total _ _ _ _ hrun
    simpa using ht
  · intro r hr
    have hstep : ∀ day s g1 rec s1 g2, True →
        simulateDay M N costs dists day s g1 = Except.ok (rec, s1, g2) →
        (rec.day_cost = rec.holding_cost + rec.shortage_cost +
          rec.purchasing_cost + rec.ordering_cost) ∧ True := by
      intro day s g1 rec s1 g2 htriv h
      obtain ⟨d, l, -, hrec, -⟩ := simulateDay_ok_elim h
      subst hrec
      exact ⟨(dayTransition_common M N costs day s d l).2.2.2.2.2.2.2.2.1,
        trivial⟩
    have hfor := simulate_policy_records
      (fun _ rec => rec.day_cost = rec.holding_cost + rec.shortage_cost +
        rec.purchasing_cost + rec.ordering_cost)
      (fun _ => True) trivial hstep hok
    obtain ⟨d, hP⟩ := forall₂_mem_right hfor r hr
    exact hP

/-- C4 witness: cost additivity evaluated on the concrete scenario-B run. -/
theorem C4_cost_additivity_witness :
    wResB.total_cost = (wResB.records.map (fun r => r.day_cost)).sum ∧
    wResB.avg_cost_per_cycle = wResB.total_cost / ((1 : Int) : ℚ) ∧
    wRecB.day_cost = wRecB.holding_cost + wRecB.shortage_cost +
      wRecB.purchasing_cost + wRecB.ordering_cost := by
  have H := C4_cost_additivity 7 1 1 wCosts wInit wDistsB wRng wResB
    validConfig_w scenB_run_w
  exact ⟨H.1, H.2.1, H.2.2 wRecB (by simp [wResB])⟩

/-! ## Claim C5 -/

/-- C5: on no simulated day is a new order placed (positive recorded
`OrderQty`, or an assigned lead time) unless the outstanding quantity at the
start of the ordering-decision step (that is, after the arrival step) is
zero; with a single scalar `outstanding_qty` in the state, at most one order
is ever in flight. -/
theorem C5_single_order (M N : Int) (costs : CostParameters)
    (dists : DiscreteDistributions) (day : Int) (s : CoreState) (g : Rng)
    (rec : DayRecord) (s' : CoreState) (g' : Rng)
    (h : simulateDay M N costs dists day s g = Except.ok (rec, s', g'))
    (hplaced : 0 < rec.order_qty ∨ rec.lead_time_assigned ≠ none) :
    (arrivalStep s).2.outstanding_qty = 0 := by
  obtain ⟨d, l, -, hrec, -⟩ := simulateDay_ok_elim h
  subst hrec
  by_cases hp : placesOrder M N day s d = true
  · exact (placesOrder_elim hp).2.2
  · exfalso
    have hpf : placesOrder M N day s d = false := by
      revert hp; cases placesOrder M N day s d <;> simp
    have hno := dayTransition_no_order M N costs day s d l hpf
    rcases hplaced with h1 | h2
    · rw [hno.1] at h1; exact lt_irrefl 0 h1
    · exact h2 hno.2.1

/-- C5 witness: the day-1 order of scenario B is placed from a state with no
outstanding order after arrival. -/
theorem C5_single_order_witness :
    0 < wRecB.order_qty ∧ (arrivalStep ⟨5, 0, 0⟩).2.outstanding_qty = 0 :=
  ⟨by decide, C5_single_order 7 1 wCosts wDistsB 1 ⟨5, 0, 0⟩ wRng
    wRecB ⟨5, 2, 0⟩ (fun n => wRng (n + 1 + 1)) scenB_day1_w
    (Or.inl (by decide))⟩

/-! ## Claim C6 -/

/-- C6: in every run of `simulate_policy` with a valid configuration, a
positive recorded `OrderQty` occurs only on review days (`day mod N == 0`),
and on non-review days the order quantity, the assigned lead time, the
purchasing cost and the ordering cost are all zero or absent. -/
theorem C6_review_gating (M N num_cycles : Int) (costs : CostParameters)
    (init : InitialState) (dists : DiscreteDistributions) (g : Rng)
    (res : SimResult)
    (hv : validConfig M N num_cycles costs init dists = true)
    (hok : simulate_policy M N num_cycles costs init dists g = Except.ok res)
    (r : DayRecord) (hr : r ∈ res.records) :
    (0 < r.order_qty → r.day.fmod N = 0) ∧
    (r.day.fmod N ≠ 0 → r.order_qty = 0 ∧ r.lead_time_assigned = none ∧
      r.purchasing_cost = 0 ∧ r.ordering_cost = 0) := by
  have hstep : ∀ day s g1 rec s1 g2, True →
      simulateDay M N costs dists day s g1 = Except.ok (rec, s1, g2) →
      ((0 < rec.order_qty → rec.day.fmod N = 0) ∧
       (rec.day.fmod N ≠ 0 → rec.order_qty = 0 ∧
        rec.lead_time_assigned = none ∧
        rec.purchasing_cost = 0 ∧ rec.ordering_cost = 0)) ∧ True := by
    intro day s g1 rec s1 g2 htriv h
    obtain ⟨d, l, -, hrec, -⟩ := simulateDay_ok_elim h
    subst hrec
    have hday := (dayTransition_common M N costs day s d l).1
    by_cases hp : placesOrder M N day s d = true
    · have hrev := (placesOrder_elim hp).1
      refine ⟨⟨fun h1 => ?_, fun hne => absurd ?_ hne⟩, trivial⟩
      · rw [hday]; exact hrev
      · rw [hday]; exact hrev
    · have hpf : placesOrder M N day s d = false := by
        revert hp; cases placesOrder M N day s d <;> simp
      have hno := dayTransition_no_order M N costs day s d l hpf
      refine ⟨⟨fun h1 => ?_,
        fun h2 => ⟨hno.1, hno.2.1, hno.2.2.1, hno.2.2.2.1⟩⟩, trivial⟩
      rw [hno.1] at h1
      exact absurd h1 (lt_irrefl 0)
  have hfor := simulate_policy_records
    (fun _ rec => (0 < rec.order_qty → rec.day.fmod N = 0) ∧
      (rec.day.fmod N ≠ 0 → rec.order_qty = 0 ∧
       rec.lead_time_assigned = none ∧
       rec.purchasing_cost = 0 ∧ rec.ordering_cost = 0))
    (fun _ => True) trivial hstep hok
  obtain ⟨d, hP⟩ := forall₂_mem_right hfor r hr
  exact hP

/-- C6 witness: review gating evaluated on the day-1 record of the concrete
scenario-B run. -/
theorem C6_review_gating_witness :
    (0 < wRecB.order_qty → wRecB.day.fmod 1 = 0) ∧
    (wRecB.day.fmod 1 ≠ 0 → wRecB.order_qty = 0 ∧
      wRecB.lead_time_assigned = none ∧
      wRecB.purchasing_cost = 0 ∧ wRecB.ordering_cost = 0) :=
  C6_review_gating 7 1 1 wCosts wInit wDistsB wRng wResB validConfig_w
    scenB_run_w wRecB (by simp [wResB])

/-! ## Claim C7 -/

/-- C7: concrete scenario B.  With M=7, N=1, one cycle, demand fixed at 0,
lead time fixed at 1, and initial state (5, 0, 0), the single day-1 record
orders 2 units with purchasing cost `2 * unit_cost`, ordering cost
`ordering_cost`, assigned lead time 1 and lead remaining 0 at day end, and
the total cost is `5 * holding_cost + 2 * unit_cost + ordering_cost` (for
any cost parameters and any random stream, since both distributions are
degenerate). -/
theorem C7_scenario_B (costs : CostParameters) (g : Rng) :
    simulate_policy 7 1 1 costs wInit wDistsB g =
      Except.ok ⟨[⟨1, 1, 5, 0, 0, 0, 5, 0, 5 * costs.holding_cost, 0,
        2, some 1, 0, 2 * costs.unit_cost, costs.ordering_cost,
        5 * costs.holding_cost + 2 * costs.unit_cost + costs.ordering_cost⟩],
        5 * costs.holding_cost + 2 * costs.unit_cost + costs.ordering_cost,
        5 * costs.holding_cost + 2 * costs.unit_cost + costs.ordering_cost⟩ :=
  scenarioB_run costs g

/-! ## Claim C8 -/

/-- C8: every run of `simulate_policy` with a valid configuration returns
exactly `N * num_cycles` records, and the k-th record (0-indexed here) has
day index `k + 1` and cycle index `k div N + 1` (equivalently, for the
1-indexed day `k + 1`, cycle `((k + 1) - 1) div N + 1`). -/
theorem C8_schedule (M N num_cycles : Int) (costs : CostParameters)
    (init : InitialState) (dists : DiscreteDistributions) (g : Rng)
    (res : SimResult)
    (hv : validConfig M N num_cycles costs init dists = true)
    (hok : simulate_policy M N num_cycles costs init dists g = Except.ok res)
    (k : Nat) (hk : k < res.records.length) :
    (res.records.length : Int) = N * num_cycles ∧
    (res.records.getD k default).day = (k : Int) + 1 ∧
    (res.records.getD k default).cycle = (k : Int).fdiv N + 1 := by
  have hstep : ∀ day s g1 rec s1 g2, True →
      simulateDay M N costs dists day s g1 = Except.ok (rec, s1, g2) →
      (rec.day = day ∧ rec.cycle = (day - 1).fdiv N + 1) ∧ True := by
    intro day s g1 rec s1 g2 htriv h
    obtain ⟨d, l, -, hrec, -⟩ := simulateDay_ok_elim h
    subst hrec
    have hc := dayTransition_common M N costs day s d l
    exact ⟨⟨hc.1, hc.2.1⟩, trivial⟩
  have hfor := simulate_policy_records
    (fun day rec => rec.day = day ∧ rec.cycle = (day - 1).fdiv N + 1)
    (fun _ => True) trivial hstep hok
  have hlen : res.records.length = (N * num_cycles).toNat := by
    have hl2 := List.Forall₂.length_eq hfor
    rw [daysList_length] at hl2
    exact hl2.symm
  obtain ⟨hN, -, hnc, -⟩ := validConfig_elim hv
  have hpos : 0 ≤ N * num_cycles := mul_nonneg (by omega) (by omega)
  have hk2 : k < (N * num_cycles).toNat := by rw [← hlen]; exact hk
  have hgd := forall₂_getD hfor k hk
  rw [daysList_getD hk2] at hgd
  refine ⟨by rw [hlen, Int.toNat_of_nonneg hpos], hgd.1, ?_⟩
  rw [hgd.2, show ((k : Int) + 1 - 1) = (k : Int) from by ring]

/-- C8 witness: the schedule properties evaluated on the concrete scenario-B
run at index 0. -/
theorem C8_schedule_witness :
    (wResB.records.length : Int) = 1 * 1 ∧
    (wResB.records.getD 0 default).day = ((0 : Nat) : Int) + 1 ∧
    (wResB.records.getD 0 default).cycle = ((0 : Nat) : Int).fdiv 1 + 1 :=
  C8_schedule 7 1 1 wCosts wInit wDistsB wRng wResB validConfig_w scenB_run_w
    0 (by simp [wResB])

/-! ## Claim C9 -/

/-- C9: in every run of `simulate_policy` with a valid configuration, every
record satisfies `EndingInventory ≥ 0`, `ShortageQty ≥ 0`, `Sales ≥ 0`,
`Sales ≤ Demand` and `Sales ≤ OnHandStart + IncomingToday`. -/
theorem C9_nonneg (M N num_cycles : Int) (costs : CostParameters)
    (init : InitialState) (dists : DiscreteDistributions) (g : Rng)
    (res : SimResult)
    (hv : validConfig M N num_cycles costs init dists = true)
    (hok : simulate_policy M N num_cycles costs init dists g = Except.ok res)
    (r : DayRecord) (hr : r ∈ res.records) :
    0 ≤ r.ending_inventory ∧ 0 ≤ r.shortage_qty ∧ 0 ≤ r.sales ∧
    r.sales ≤ r.demand ∧ r.sales ≤ r.on_hand_start + r.incoming_today := by
  obtain ⟨-, -, -, -, -, hdv, -, hoh, hoq, -⟩ := validConfig_elim hv
  have hstep : ∀ day s g1 rec s1 g2,
      (0 ≤ s.on_hand ∧ 0 ≤ s.outstanding_qty) →
      simulateDay M N costs dists day s g1 = Except.ok (rec, s1, g2) →
      (0 ≤ rec.ending_inventory ∧ 0 ≤ rec.shortage_qty ∧ 0 ≤ rec.sales ∧
       rec.sales ≤ rec.demand ∧
       rec.sales ≤ rec.on_hand_start + rec.incoming_today) ∧
      (0 ≤ s1.on_hand ∧ 0 ≤ s1.outstanding_qty) := by
    intro day s g1 rec s1 g2 hInv h
    obtain ⟨d, l, hd, hrec, hs1⟩ := simulateDay_ok_elim h
    subst hrec; subst hs1
    have hc := dayTransition_common M N costs day s d l
    have hd0 : 0 ≤ d := hdv d hd
    have hinc : 0 ≤ (arrivalStep s).1 := arrivalStep_incoming_nonneg s hInv.2
    have hsA := arrivalStep_on_hand s
    have hminl := min_le_left (arrivalStep s).2.on_hand d
    have hminr := min_le_right (arrivalStep s).2.on_hand d
    have hmin0 : 0 ≤ min (arrivalStep s).2.on_hand d :=
      le_min (by omega) hd0
    have hmax0 : (0 : Int) ≤ max (d - (arrivalStep s).2.on_hand) 0 :=
      le_max_right _ _
    refine ⟨?_, ?_⟩
    · rw [hc.2.2.2.2.2.2.2.1, hc.2.2.2.2.2.2.1, hc.2.2.2.2.2.1,
        hc.2.2.2.2.1, hc.2.2.1, hc.2.2.2.1]
      omega
    · constructor
      · rw [hc.2.2.2.2.2.2.2.2.2.2, hc.2.2.2.2.2.2.2.1]
        omega
      · by_cases hp : placesOrder M N day s d = true
        · have hor := dayTransition_order M N costs day s d l hp
          have hpos := dayTransition_order_qty_pos M N costs day s d l hp
          rw [hor.2.2.2.2.1]
          omega
        · have hpf : placesOrder M N day s d = false := by
            revert hp; cases placesOrder M N day s d <;> simp
          have hno := dayTransition_no_order M N costs day s d l hpf
          rw [hno.2.2.2.2.1]
          have hsoq := hInv.2
          rcases arrivalStep_outstanding s with ho | ho <;> rw [ho] <;> omega
  have hfor := simulate_policy_records
    (fun _ rec => 0 ≤ rec.ending_inventory ∧ 0 ≤ rec.shortage_qty ∧
      0 ≤ rec.sales ∧ rec.sales ≤ rec.demand ∧
      rec.sales ≤ rec.on_hand_start + rec.incoming_today)
    (fun st => 0 ≤ st.on_hand ∧ 0 ≤ st.outstanding_qty)
    ⟨hoh, hoq⟩ hstep hok
  obtain ⟨d, hP⟩ := forall₂_mem_right hfor r hr
  exact hP

/-- C9 witness: the non-negativity bounds evaluated on the day-1 record of
the concrete counterexample-scenario run (which has a positive shortage and
a positive arrival). -/
theorem C9_nonneg_witness :
    0 ≤ cexRec.ending_inventory ∧ 0 ≤ cexRec.shortage_qty ∧
    0 ≤ cexRec.sales ∧ cexRec.sales ≤ cexRec.demand ∧
    cexRec.sales ≤ cexRec.on_hand_start + cexRec.incoming_today :=
  C9_nonneg 0 1 1 wCosts cexInit cexDists wRng cexRes validConfig_cex cex_run
    cexRec (by simp [cexRes])

/-! ## Claim C10 -/

/-- C10: an order whose sampled lead time is 0 behaves exactly like one with
sampled lead time 1: on the day it is placed the stored lead time ends at 0
(a lead time of 0 is never decremented, a lead time of 1 is decremented to 0
the same day), the record shows `LeadRemainingEnd = 0`, the order stays
outstanding, and on any next simulated day the full order quantity arrives
as that day's `IncomingToday`. -/
theorem C10_zero_lead (M N : Int) (costs : CostParameters)
    (dists : DiscreteDistributions) (day : Int) (s : CoreState) (g : Rng)
    (rec : DayRecord) (s' : CoreState) (g' : Rng) (lead : Int)
    (h : simulateDay M N costs dists day s g = Except.ok (rec, s', g'))
    (hassigned : rec.lead_time_assigned = some lead)
    (hlead : lead = 0 ∨ lead = 1) :
    rec.lead_remaining_end = 0 ∧ s'.lead_remaining = 0 ∧
    s'.outstanding_qty = rec.order_qty ∧ 0 < rec.order_qty ∧
    ∀ day2 g2 rec2 s2 g2a,
      simulateDay M N costs dists day2 s' g2 = Except.ok (rec2, s2, g2a) →
      rec2.incoming_today = rec.order_qty := by
  obtain ⟨d, l, -, hrec, hs'⟩ := simulateDay_ok_elim h
  subst hrec; subst hs'
  by_cases hp : placesOrder M N day s d = true
  case neg =>
    exfalso
    have hpf : placesOrder M N day s d = false := by
      revert hp; cases placesOrder M N day s d <;> simp
    have hno := dayTransition_no_order M N costs day s d l hpf
    rw [hno.2.1] at hassigned
    exact absurd hassigned (by simp)
  case pos =>
    have hc := dayTransition_common M N costs day s d l
    have hor := dayTransition_order M N costs day s d l hp
    have hpos := dayTransition_order_qty_pos M N costs day s d l hp
    have hsome := hor.2.1.symm.trans hassigned
    injection hsome with hleq
    have hlead2 : l = 0 ∨ l = 1 := by rw [hleq]; exact hlead
    have hlr : (dayTransition M N costs day s d l).2.lead_remaining = 0 := by
      rw [hor.2.2.2.2.2]
      unfold leadDecrement
      rcases hlead2 with h0 | h0 <;> subst h0
      · rw [if_neg (by simp)]
      · rw [if_pos ⟨hpos, by norm_num⟩]
        norm_num
    refine ⟨?_, hlr, hor.2.2.2.2.1, hpos, ?_⟩
    · rw [hc.2.2.2.2.2.2.2.2.2.1]
      exact hlr
    · intro day2 g2 rec2 s2 g2a h2
      obtain ⟨d2, l2, -, hrec2, -⟩ := simulateDay_ok_elim h2
      subst hrec2
      have hc2 := dayTransition_common M N costs day2
        (dayTransition M N costs day s d l).2 d2 l2
      rw [hc2.2.2.2.1]
      rw [arrivalStep_arrives _ hlr]
      · exact hor.2.2.2.2.1
      · rw [hor.2.2.2.2.1]
        exact hpos

/-- C10 witness: a lead-time-0 order placed on day 1 ends the day with lead
remaining 0 and arrives in full at the start of day 2. -/
theorem C10_zero_lead_witness :
    w10Rec1.lead_remaining_end = 0 ∧
    w10Rec2.incoming_today = w10Rec1.order_qty := by
  have H := C10_zero_lead 7 1 wCosts wDists0 1 ⟨5, 0, 0⟩ wRng w10Rec1
    ⟨5, 2, 0⟩ (fun n => wRng (n + 1 + 1)) 0 w10_day1 (by decide) (Or.inl rfl)
  exact ⟨H.1, H.2.2.2.2 2 wRng w10Rec2 ⟨7, 0, 0⟩ (fun n => wRng (n + 1))
    w10_day2⟩

end InventorySim
